import Mathlib

/-!
Verification of the typed configuration object of `rltools`
(`rltools/config.py`): a dataclass base `Config` whose `__post_init__`
coerces fields to their declared types, with YAML `save`/`load` and an
argparse-derived `from_entrypoint`.

The development is a shallow embedding of the Python semantics the module
exercises: Python type annotations become the inductive `PyType`, runtime
values become `PyVal`, and each function of the module becomes an
executable Lean definition (`post_init_field`, `mk_config`, `load_model`,
`from_entrypoint`, ...).  Machine floats are modelled by exact decimal
numbers (an integer numerator together with a power-of-ten shift); this
is the one numeric abstraction, and it is exact on every decimal literal
appearing below.
-/

/-- Python type annotations, as the `typing` module presents them to
`typing.get_origin` / `typing.get_args`.  `generic o args` is a
subscripted alias such as `List[int]` (origin `list`), `Sequence[int]`
(origin `collections.abc.Sequence`, constructor `seqT`) or
`Tuple[int, ...]` (args `[int, Ellipsis]`, constructor `ellipsisT` for
the literal ellipsis).  `unionType a rest` is `Union[a, *rest]`
(`Optional[T]` is `Union[T, None]`, with `NoneType` as `noneT`);
`unionObj` is the bare `typing.Union` special form, which is what
`typing.get_origin` returns on a subscripted union.  `objT` stands for
any other class object. -/
inductive PyType where
  | intT
  | floatT
  | boolT
  | strT
  | listT
  | tupleT
  | setT
  | dictT
  | seqT
  | noneT
  | ellipsisT
  | unionObj
  | objT (name : String)
  | generic (origin : PyType) (args : List PyType)
  | unionType (first : PyType) (rest : List PyType)

/-- Model of `typing.get_origin`: the unsubscripted origin of a
subscripted generic, `typing.Union` for a subscripted union, and `None`
for every plain type. -/
def get_origin : PyType → Option PyType
  | .generic o _ => some o
  | .unionType _ _ => some .unionObj
  | _ => none

/-- Model of `typing.get_args`: the arguments of a subscripted generic or
union, and the empty tuple for every plain type. -/
def get_args : PyType → List PyType
  | .generic _ args => args
  | .unionType a rest => a :: rest
  | _ => []

/-- Source `_topy`: `typing.get_origin(dtype) or dtype`. -/
def topy (dtype : PyType) : PyType :=
  match get_origin dtype with
  | some o => o
  | none => dtype

/-- Source `_strip_union`: if `typing.get_origin(dtype) == typing.Union`
(exactly the subscripted unions) replace `dtype` by
`typing.get_args(dtype)[0]`. -/
def strip_union (dtype : PyType) : PyType :=
  match dtype with
  | .unionType a _ => a
  | t => t

/-- Membership test in the source tuple
`valid_types = tuple(map(_topy, typing.get_args(_ValidType)))` where
`_ValidType = Union[int, float, bool, str, list, tuple]`, so
`valid_types == (int, float, bool, str, list, tuple)`. -/
def in_valid_types : PyType → Bool
  | .intT | .floatT | .boolT | .strT | .listT | .tupleT => true
  | _ => false

/-- Sanity characterisation of `in_valid_types` as membership in the
six-element tuple it encodes. -/
theorem in_valid_types_iff (t : PyType) :
    in_valid_types t = true ↔
      t = .intT ∨ t = .floatT ∨ t = .boolT ∨ t = .strT ∨
      t = .listT ∨ t = .tupleT := by
  cases t <;> simp [in_valid_types]

/-- Python runtime values reachable by the configuration module.  Floats
are modelled exactly by decimal numbers: `vFloat num shift` denotes
`num / 10 ^ shift`; every float literal and every string the module
parses as a float is such a decimal, so the abstraction is exact here.
`vMissing` is the `dataclasses.MISSING` sentinel that
`dataclasses.Field.default` holds when a field declares no default. -/
inductive PyVal where
  | vNone
  | vMissing
  | vInt (n : Int)
  | vBool (b : Bool)
  | vFloat (num : Int) (shift : Nat)
  | vStr (s : String)
  | vList (xs : List PyVal)
  | vTuple (xs : List PyVal)
  | vSet (xs : List PyVal)

/-- Test for the value `None` (Python `value is None`). -/
def is_none_val : PyVal → Bool
  | .vNone => true
  | _ => false

/-- Python truthiness (`bool(v)`): zero numbers, empty containers, the
empty string and `None` are falsy; every other value (including any
non-empty string such as "False") is truthy. -/
def truthy : PyVal → Bool
  | .vNone => false
  | .vMissing => true
  | .vInt n => !(n == 0)
  | .vBool b => b
  | .vFloat num _ => !(num == 0)
  | .vStr s => !(s == "")
  | .vList xs => !xs.isEmpty
  | .vTuple xs => !xs.isEmpty
  | .vSet xs => !xs.isEmpty

/-- Exceptions the modelled code can raise.  `schemaTypeError t msg`
is the source `TypeError(field.type, _INVALID_TYPE_MSG)`;
`argparseError` stands for the `SystemExit` argparse raises through
`parser.error`. -/
inductive PyErr where
  | typeError (msg : String)
  | schemaTypeError (declared : PyType) (msg : String)
  | valueError (msg : String)
  | argparseError (msg : String)

/-- Source `_INVALID_TYPE_MSG` (the f-string rendering of the supported
tuple is abbreviated; only the identity of the message matters). -/
def invalid_type_msg : String :=
  "Flat and homogeneous types are only supported"

/-- Digit list to number; fails on the empty list or any non-digit. -/
def parse_digits (cs : List Char) : Option Nat :=
  match cs with
  | [] => none
  | _ =>
    if cs.all (fun c => c.isDigit) then
      some (cs.foldl (fun a c => a * 10 + (c.toNat - 48)) 0)
    else
      none

/-- Strip leading and trailing ASCII whitespace (Python `int`/`float`
accept surrounding whitespace in a string argument). -/
def strip_ws (cs : List Char) : List Char :=
  ((cs.dropWhile (fun c => c.isWhitespace)).reverse.dropWhile
    (fun c => c.isWhitespace)).reverse

/-- Python `int(s)` on a string: optional sign and decimal digits.
Underscore separators and non-decimal bases are not modelled. -/
def int_of_string (s : String) : Option Int :=
  match strip_ws s.toList with
  | '-' :: cs => (parse_digits cs).map (fun n => -(n : Int))
  | '+' :: cs => (parse_digits cs).map (fun n => (n : Int))
  | cs => (parse_digits cs).map (fun n => (n : Int))

/-- Python `float(s)` on a string, for plain decimal literals: optional
sign, integer digits, optional fractional digits (at least one digit
overall).  The result is the pair (numerator, power-of-ten shift).
Exponent notation and the special values inf/nan are not modelled. -/
def float_digits_of (cs : List Char) : Option (Nat × Nat) :=
  match cs.span (fun c => !(c == '.')) with
  | (ip, []) => (parse_digits ip).map (fun n => (n, 0))
  | (ip, _dot :: fp) =>
    match ip, fp with
    | [], [] => none
    | [], _ => (parse_digits fp).map (fun n => (n, fp.length))
    | _, [] => (parse_digits ip).map (fun n => (n, 0))
    | _, _ =>
      match parse_digits ip, parse_digits fp with
      | some i, some f => some (i * 10 ^ fp.length + f, fp.length)
      | _, _ => none

/-- Signed decimal parse for `float(s)`. -/
def float_of_string (s : String) : Option (Int × Nat) :=
  match strip_ws s.toList with
  | '-' :: cs => (float_digits_of cs).map (fun p => (-(p.1 : Int), p.2))
  | '+' :: cs => (float_digits_of cs).map (fun p => ((p.1 : Int), p.2))
  | cs => (float_digits_of cs).map (fun p => ((p.1 : Int), p.2))

/-- Python `int(v)`: identity on ints, truncation toward zero on floats,
0/1 on bools, decimal parse on strings (`ValueError` on failure),
`TypeError` on everything else. -/
def py_int : PyVal → Except PyErr PyVal
  | .vInt n => .ok (.vInt n)
  | .vBool b => .ok (.vInt (if b then 1 else 0))
  | .vFloat num shift => .ok (.vInt (num.tdiv ((10 : Int) ^ shift)))
  | .vStr s =>
    match int_of_string s with
    | some n => .ok (.vInt n)
    | none => .error (.valueError ("invalid literal for int: " ++ s))
  | _ => .error (.typeError "int argument must be a string or a number")

/-- Python `float(v)`. -/
def py_float : PyVal → Except PyErr PyVal
  | .vFloat num shift => .ok (.vFloat num shift)
  | .vInt n => .ok (.vFloat n 0)
  | .vBool b => .ok (.vFloat (if b then 1 else 0) 0)
  | .vStr s =>
    match float_of_string s with
    | some p => .ok (.vFloat p.1 p.2)
    | none => .error (.valueError ("could not convert string to float: " ++ s))
  | _ => .error (.typeError "float argument must be a string or a number")

/-- Decimal rendering of the float model, used by `py_str`: digits of
the numerator with a decimal point `shift` places from the right
(Python renders the shortest repr of the IEEE value; on the decimals
the module actually produces the two agree up to trailing zeros). -/
def render_float (num : Int) (shift : Nat) : String :=
  let sign := if num < 0 then "-" else ""
  let digits := toString num.natAbs
  let padded :=
    if digits.length ≤ shift then
      String.mk (List.replicate (shift + 1 - digits.length) '0') ++ digits
    else digits
  let cut := padded.length - shift
  if shift == 0 then sign ++ padded ++ ".0"
  else sign ++ padded.take cut ++ "." ++ padded.drop cut

/-- Python `str(v)` for the scalar values; never fails.  Containers are
rendered by a fixed placeholder: no claim observes the text `str`
produces on a container, only that the call succeeds. -/
def py_str : PyVal → String
  | .vStr s => s
  | .vBool b => if b then "True" else "False"
  | .vInt n => toString n
  | .vFloat num shift => render_float num shift
  | .vNone => "None"
  | .vMissing => "MISSING"
  | .vList _ => "<list>"
  | .vTuple _ => "<tuple>"
  | .vSet _ => "<set>"

/-- Python iteration: lists, tuples and sets yield their elements,
strings yield their one-character substrings, everything else raises
`TypeError` (this is what `map(f, value)` checks when it is created). -/
def py_iter : PyVal → Except PyErr (List PyVal)
  | .vList xs => .ok xs
  | .vTuple xs => .ok xs
  | .vSet xs => .ok xs
  | .vStr s => .ok (s.toList.map (fun c => .vStr (String.mk [c])))
  | _ => .error (.typeError "argument is not iterable")

/-- Elementwise application of a coercion, as materialising
`map(f, xs)` does; the first failing element raises. -/
def map_coerce (f : PyVal → Except PyErr PyVal) :
    List PyVal → Except PyErr (List PyVal)
  | [] => .ok []
  | x :: xs =>
    match f x with
    | .error e => .error e
    | .ok y =>
      match map_coerce f xs with
      | .error e => .error e
      | .ok ys => .ok (y :: ys)

/-- Calling a type object with one argument, `dtype(value)`.  The four
scalar builtins convert, the container builtins rebuild from an
iterable, abstract classes and special forms raise `TypeError`.
A subscripted generic delegates to its origin (calling `List[int]`
calls `list`).  Calling an arbitrary class (`objT`) constructs an
instance of that class; no modelled claim reaches this case, so it is
folded into `TypeError`. -/
def call_type : PyType → PyVal → Except PyErr PyVal
  | .intT, v => py_int v
  | .floatT, v => py_float v
  | .boolT, v => .ok (.vBool (truthy v))
  | .strT, v => .ok (.vStr (py_str v))
  | .listT, v =>
    match py_iter v with
    | .error e => .error e
    | .ok xs => .ok (.vList xs)
  | .tupleT, v =>
    match py_iter v with
    | .error e => .error e
    | .ok xs => .ok (.vTuple xs)
  | .setT, v =>
    -- The model keeps the iteration order and does not deduplicate;
    -- no claim ever constructs a set value (set-typed fields are
    -- rejected before their value is touched).
    match py_iter v with
    | .error e => .error e
    | .ok xs => .ok (.vSet xs)
  | .dictT, _ => .error (.typeError "dict construction is not reached")
  | .seqT, _ =>
    .error (.typeError "cannot instantiate abstract class Sequence")
  | .noneT, _ => .error (.typeError "cannot call NoneType with arguments")
  | .ellipsisT, _ => .error (.typeError "ellipsis is not callable")
  | .unionObj, _ => .error (.typeError "cannot instantiate typing.Union")
  | .unionType _ _, _ =>
    .error (.typeError "cannot instantiate a subscripted union")
  | .objT n, _ => .error (.typeError ("call of unmodelled class " ++ n))
  | .generic o _, v => call_type o v

/-- Test whether `typing.get_origin(t) == typing.Union` (the
`is_optional` test of `__post_init__`; note it is true for every
subscripted union, not only `Optional`). -/
def is_union_origin (t : PyType) : Bool :=
  match get_origin t with
  | some .unionObj => true
  | _ => false

/-- The body of `Config.__post_init__` for one field: validate the
origin kind of the `Optional`-stripped declared type against
`valid_types`, apply the elementwise coercion `map(_topy(args[0]), v)`
when the stripped type is subscripted, keep `None` for union-typed
fields, and otherwise coerce with the origin kind itself.

In the source the `map` object is lazy and is only materialised by the
final `fdtype(value)` call; the model materialises it eagerly.  The two
agree observably: creating `map(f, v)` already raises `TypeError` when
`v` is not iterable, a map object is never `None` (so the `Optional`
branch is unaffected), and element coercion failures surface as the
same exception either way. -/
def post_init_field (ftype0 : PyType) (value0 : PyVal) : Except PyErr PyVal :=
  let ftype := strip_union ftype0
  let fdtype := topy ftype
  if !(in_valid_types fdtype) then
    .error (.schemaTypeError ftype0 invalid_type_msg)
  else
    let mapped : Except PyErr PyVal :=
      match get_args ftype with
      | [] => .ok value0
      | dtype :: _ =>
        match py_iter value0 with
        | .error e => .error e
        | .ok xs =>
          match map_coerce (call_type (topy dtype)) xs with
          | .error e => .error e
          | .ok ys => .ok (.vList ys)
    match mapped with
    | .error e => .error e
    | .ok value =>
      if is_union_origin ftype0 && is_none_val value then .ok .vNone
      else call_type fdtype value

/-- One declared dataclass field: name, annotation, declared default
(`none` models `dataclasses.MISSING`). -/
structure FieldSpec where
  name : String
  type : PyType
  default : Option PyVal

/-- First binding of a key in an association list (Python dict lookup;
the lists built below have unique keys whenever the schema has unique
field names). -/
def lookup_kw (kwargs : List (String × PyVal)) (n : String) : Option PyVal :=
  match kwargs with
  | [] => none
  | p :: rest => if p.1 == n then some p.2 else lookup_kw rest n

/-- The raw value the generated `__init__` binds to a field: the keyword
argument if supplied, else the declared default, else `TypeError`.
In Python the missing-argument `TypeError` fires before any coercion
runs; the model raises it when the field is reached, which changes at
most which of two exceptions is reported, never success or the
resulting value. -/
def get_raw (f : FieldSpec) (kwargs : List (String × PyVal)) :
    Except PyErr PyVal :=
  match lookup_kw kwargs f.name with
  | some v => .ok v
  | none =>
    match f.default with
    | some d => .ok d
    | none =>
      .error (.typeError ("missing required keyword argument " ++ f.name))

/-- Dataclass construction `cls(**kwargs)` followed by
`__post_init__`: every field receives its raw value and is coerced in
declaration order; the first exception aborts.  The result is the
field-name-to-value mapping of the instance. -/
def mk_config : List FieldSpec → List (String × PyVal) →
    Except PyErr (List (String × PyVal))
  | [], _ => .ok []
  | f :: fs, kwargs =>
    match get_raw f kwargs with
    | .error e => .error e
    | .ok raw =>
      match post_init_field f.type raw with
      | .error e => .error e
      | .ok v =>
        match mk_config fs kwargs with
        | .error e => .error e
        | .ok rest => .ok ((f.name, v) :: rest)

mutual
/-- What safe-mode YAML (`YAML(typ="safe", pure=True)`) gives back for a
value written by `save` and reread by `load`: scalars, `None`, strings
and lists round-trip to themselves, while a tuple is represented as a
YAML sequence and therefore comes back as a list. -/
def yaml_round : PyVal → PyVal
  | .vTuple xs => .vList (yaml_round_list xs)
  | .vList xs => .vList (yaml_round_list xs)
  | .vSet xs => .vSet (yaml_round_list xs)
  | v => v
def yaml_round_list : List PyVal → List PyVal
  | [] => []
  | x :: xs => yaml_round x :: yaml_round_list xs
end

example : yaml_round (.vTuple [.vInt 1, .vTuple [.vInt 2]]) =
    .vList [.vInt 1, .vList [.vInt 2]] := rfl

/-- Source `Config.save` followed by `yaml.load` of the written file:
`dataclasses.asdict` of a config is its field-to-value mapping (the
recursion in `asdict` only deep-copies), and each value comes back as
`yaml_round` describes. -/
def save_then_read (inst : List (String × PyVal)) : List (String × PyVal) :=
  inst.map (fun p => (p.1, yaml_round p.2))

/-- Python `dict.update`: entries of `d` whose key also occurs in `kw`
take the `kw` value in place, and `kw` entries with fresh keys are
appended in order. -/
def dict_update (d kw : List (String × PyVal)) : List (String × PyVal) :=
  (d.map (fun p =>
    match lookup_kw kw p.1 with
    | some v => (p.1, v)
    | none => p)) ++
  kw.filter (fun q => !(d.any (fun p => p.1 == q.1)))

/-- Source `Config.load`, given the mapping parsed from the YAML file:
apply the keyword overrides with `dict.update`, drop every key that is
not a declared field name, and construct (running `__post_init__`). -/
def load_model (schema : List FieldSpec)
    (file_dict kwargs : List (String × PyVal)) :
    Except PyErr (List (String × PyVal)) :=
  let config_dict := dict_update file_dict kwargs
  let known_names := schema.map (fun f => f.name)
  let filtered := config_dict.filter (fun p => known_names.contains p.1)
  mk_config schema filtered

example :
    load_model [⟨"a", .intT, some (.vInt 0)⟩]
      [("a", .vInt 3), ("junk", .vStr "x")] [] = .ok [("a", .vInt 3)] := rfl

/-- One argparse action, as `parser.add_argument(f"--{name}", **action)`
registers it from `_add_argument`: destination, default, the `type=`
callable (a type object), whether the action is
`argparse.BooleanOptionalAction`, whether `nargs="+"` was set, and the
option strings it answers to (`BooleanOptionalAction` registers the
additional `--no-<flag>` spelling).  The mined docstring help text has
no effect on parsing and is not carried. -/
structure ArgAction where
  dest : String
  default : PyVal
  typeT : PyType
  isBoolOpt : Bool
  nargsPlus : Bool
  optStrings : List String

/-- Source `_add_argument` plus the `parser.add_argument` call for one
field: `ftype = _strip_union(field.type)`, `dtype = _topy(ftype)`,
boolean origins get `BooleanOptionalAction`, subscripted types get the
element type and `nargs="+"`, and the single option string is
`--<field_name>` (with the underscores of the field name, verbatim). -/
def add_argument (f : FieldSpec) : ArgAction :=
  let ftype := strip_union f.type
  let args := get_args ftype
  let dtype0 := topy ftype
  let isB : Bool :=
    match dtype0 with
    | .boolT => true
    | _ => false
  let dtype :=
    match args with
    | [] => dtype0
    | a :: _ => topy a
  { dest := f.name
    default :=
      match f.default with
      | some d => d
      | none => .vMissing
    typeT := dtype
    isBoolOpt := isB
    nargsPlus := !args.isEmpty
    optStrings :=
      if isB then ["--" ++ f.name, "--no-" ++ f.name]
      else ["--" ++ f.name] }

/-- Character-list test that the first list begins with the second
(used instead of the library string test so that every theorem below
evaluates inside the kernel). -/
def chars_begin_with : List Char → List Char → Bool
  | _, [] => true
  | [], _ :: _ => false
  | c :: cs, p :: ps => (c == p) && chars_begin_with cs ps

/-- Python `s.startswith(pre)` on the modelled strings. -/
def str_begins_with (s pre : String) : Bool :=
  chars_begin_with s.toList pre.toList

/-- Negative-number shape `-d...` or `-d*.d...` that argparse treats as
a positional value when (as here) no option string starts with a
digit. -/
def neg_number_tok (s : String) : Bool :=
  match s.toList with
  | '-' :: (c :: cs) => (c :: cs).all (fun d => d.isDigit || d == '.')
  | _ => false

/-- Whether argparse classifies a token as an optional flag rather than
a value: it starts with `-`, is not `-` alone, and does not look like a
negative number.  Abbreviated long options are not modelled;
every flag in the claims is spelled in full or is entirely unknown. -/
def looks_like_option (s : String) : Bool :=
  match s.toList with
  | '-' :: (_ :: _) => !neg_number_tok s
  | _ => false

/-- First registered action owning the given option string. -/
def match_opt (opts : List ArgAction) (tok : String) : Option ArgAction :=
  match opts with
  | [] => none
  | o :: rest =>
    if o.optStrings.contains tok then some o else match_opt rest tok

/-- Convert the collected raw strings of one `nargs="+"` group with the
action type, failing like `parser.error` on a bad value or on an empty
group. -/
def finish_plus (o : ArgAction) (vs : List String) :
    Except PyErr (String × PyVal) :=
  match vs with
  | [] => .error (.argparseError (o.dest ++ ": expected at least one argument"))
  | _ =>
    match map_coerce (fun v => call_type o.typeT v) (vs.map (fun s => .vStr s)) with
    | .error e => .error e
    | .ok ws => .ok (o.dest, .vList ws)

/-- The token-consuming loop of `parser.parse_known_args`: walk the
argument list left to right with at most one `nargs="+"` group open,
returning the `dest := value` assignments in order of appearance and
the unrecognised extras.  A known `BooleanOptionalAction` flag stores
`True`, its `--no-` spelling stores `False`; a known single-value flag
converts the following token with its type; a known `nargs="+"` flag
collects the following non-option tokens and converts each; any other
token goes to the extras. -/
def parse_go (opts : List ArgAction) :
    List String → Option (ArgAction × List String) →
    Except PyErr (List (String × PyVal) × List String)
  | [], none => .ok ([], [])
  | [], some (o, vs) =>
    (match finish_plus o (vs.reverse) with
     | .error e => .error e
     | .ok a => .ok ([a], []))
  | t :: ts, none =>
    (match match_opt opts t with
     | none =>
       (match parse_go opts ts none with
        | .error e => .error e
        | .ok (as, ex) => .ok (as, t :: ex))
     | some o =>
       if o.isBoolOpt then
         (match parse_go opts ts none with
          | .error e => .error e
          | .ok (as, ex) =>
            .ok ((o.dest, .vBool (!(str_begins_with t "--no-"))) :: as, ex))
       else if o.nargsPlus then
         parse_go opts ts (some (o, []))
       else
         (match ts with
          | [] => .error (.argparseError (t ++ ": expected one argument"))
          | v :: ts2 =>
            if looks_like_option v then
              .error (.argparseError (t ++ ": expected one argument"))
            else
              (match call_type o.typeT (.vStr v) with
               | .error e => .error e
               | .ok w =>
                 (match parse_go opts ts2 none with
                  | .error e => .error e
                  | .ok (as, ex) => .ok ((o.dest, w) :: as, ex)))))
  | t :: ts, some (o, vs) =>
    if looks_like_option t then
      -- The open group closes; the current token is then dispatched
      -- exactly as in the no-open-group case above.
      (match finish_plus o (vs.reverse) with
       | .error e => .error e
       | .ok a =>
         (match match_opt opts t with
          | none =>
            (match parse_go opts ts none with
             | .error e => .error e
             | .ok (as, ex) => .ok (a :: as, t :: ex))
          | some o2 =>
            if o2.isBoolOpt then
              (match parse_go opts ts none with
               | .error e => .error e
               | .ok (as, ex) =>
                 .ok (a :: (o2.dest, .vBool (!(str_begins_with t "--no-"))) :: as, ex))
            else if o2.nargsPlus then
              (match parse_go opts ts (some (o2, [])) with
               | .error e => .error e
               | .ok (as, ex) => .ok (a :: as, ex))
            else
              (match ts with
               | [] => .error (.argparseError (t ++ ": expected one argument"))
               | v :: ts2 =>
                 if looks_like_option v then
                   .error (.argparseError (t ++ ": expected one argument"))
                 else
                   (match call_type o2.typeT (.vStr v) with
                    | .error e => .error e
                    | .ok w =>
                      (match parse_go opts ts2 none with
                       | .error e => .error e
                       | .ok (as, ex) => .ok (a :: (o2.dest, w) :: as, ex))))))
    else
      parse_go opts ts (some (o, t :: vs))

/-- Last assignment to a destination wins (argparse applies assignments
to the namespace in order, so a repeated flag overwrites). -/
def lookup_last (assigns : List (String × PyVal)) (n : String) : Option PyVal :=
  lookup_kw assigns.reverse n

/-- The namespace after parsing: each action in registration order gets
its last assignment if its flag was seen, otherwise its default - and,
as CPython does, the default of an action that was not seen and whose
default is a plain string is passed through the action type first. -/
def assemble_ns (assigns : List (String × PyVal)) :
    List ArgAction → Except PyErr (List (String × PyVal))
  | [] => .ok []
  | o :: os =>
    let entry : Except PyErr (String × PyVal) :=
      match lookup_last assigns o.dest with
      | some v => .ok (o.dest, v)
      | none =>
        match o.default with
        | .vStr s =>
          (match call_type o.typeT (.vStr s) with
           | .error e => .error e
           | .ok w => .ok (o.dest, w))
        | d => .ok (o.dest, d)
    match entry with
    | .error e => .error e
    | .ok p =>
      match assemble_ns assigns os with
      | .error e => .error e
      | .ok ps => .ok (p :: ps)

/-- Source `parser.parse_known_args()` on the modelled parser: defaults
populate the namespace and the token loop overwrites the flags that
were seen. -/
def parse_known_args (opts : List ArgAction) (argv : List String) :
    Except PyErr (List (String × PyVal) × List String) :=
  match parse_go opts argv none with
  | .error e => .error e
  | .ok (assigns, extras) =>
    match assemble_ns assigns opts with
    | .error e => .error e
    | .ok ns => .ok (ns, extras)

/-- Source `Config.from_entrypoint` with a fresh parser, taking the
process argument list (`sys.argv[1:]`) explicitly: register one flag
per declared field, parse known arguments, keep the namespace entries
whose key is a declared field name, and construct.  The docstring help
search has no effect on the parsed values and is omitted. -/
def from_entrypoint (schema : List FieldSpec) (argv : List String) :
    Except PyErr (List (String × PyVal)) :=
  let opts := schema.map add_argument
  match parse_known_args opts argv with
  | .error e => .error e
  | .ok (ns, _extras) =>
    let known := schema.map (fun f => f.name)
    let kwargs := ns.filter (fun p => known.contains p.1)
    mk_config schema kwargs

/-- Scalar kinds of the specification data model: int, float, bool,
string. -/
def is_scalar_kind : PyType → Bool
  | .intT | .floatT | .boolT | .strT => true
  | _ => false

/-- Valid schema field types, following the specification data model:
one of the four scalar kinds, or `Optional[T]` with `T` a scalar kind,
or a flat homogeneous sequence/set of a scalar kind (`sequence_of[T]`,
`tuple_of[T]`, `set_of[T]`; both the concrete `list` and the abstract
sequence alias are admitted as sequence types). -/
def spec_valid_field_type (t : PyType) : Bool :=
  is_scalar_kind t ||
  (match t with
   | .unionType u [.noneT] => is_scalar_kind u
   | _ => false) ||
  (match t with
   | .generic .listT [u] => is_scalar_kind u
   | .generic .seqT [u] => is_scalar_kind u
   | .generic .setT [u] => is_scalar_kind u
   | .generic .tupleT [u, .ellipsisT] => is_scalar_kind u
   | _ => false)

/-- Values produced by a successful scalar coercion. -/
def scalar_shaped : PyVal → Bool
  | .vInt _ | .vBool _ | .vFloat _ _ | .vStr _ => true
  | _ => false

/-- Successful `int(v)` always yields an int. -/
theorem py_int_inv {v w : PyVal} (h : py_int v = .ok w) : ∃ n, w = .vInt n := by
  cases v <;> try simp only [py_int] at h
  case vNone => cases h
  case vMissing => cases h
  case vList xs => cases h
  case vTuple xs => cases h
  case vSet xs => cases h
  case vInt n => cases h; exact ⟨_, rfl⟩
  case vBool b => cases h; exact ⟨_, rfl⟩
  case vFloat n s => cases h; exact ⟨_, rfl⟩
  case vStr s =>
    split at h
    · cases h; exact ⟨_, rfl⟩
    · cases h

/-- Successful `float(v)` always yields a float. -/
theorem py_float_inv {v w : PyVal} (h : py_float v = .ok w) :
    ∃ n s, w = .vFloat n s := by
  cases v <;> try simp only [py_float] at h
  case vNone => cases h
  case vMissing => cases h
  case vList xs => cases h
  case vTuple xs => cases h
  case vSet xs => cases h
  case vInt n => cases h; exact ⟨_, _, rfl⟩
  case vBool b => cases h; exact ⟨_, _, rfl⟩
  case vFloat n s => cases h; exact ⟨_, _, rfl⟩
  case vStr s =>
    split at h
    · cases h; exact ⟨_, _, rfl⟩
    · cases h

/-- A successful scalar coercion is idempotent, is untouched by the
YAML round trip, and never returns `None`. -/
theorem scalar_stable {u : PyType} (hu : is_scalar_kind u = true)
    {v w : PyVal} (h : call_type u v = .ok w) :
    call_type u w = .ok w ∧ yaml_round w = w ∧ is_none_val w = false ∧
      scalar_shaped w = true := by
  cases u <;> simp [is_scalar_kind] at hu
  · obtain ⟨n, rfl⟩ := py_int_inv h
    exact ⟨rfl, rfl, rfl, rfl⟩
  · obtain ⟨n, s, rfl⟩ := py_float_inv h
    exact ⟨rfl, rfl, rfl, rfl⟩
  · simp only [call_type] at h
    obtain rfl : PyVal.vBool (truthy v) = w := by
      simpa using h
    exact ⟨rfl, rfl, rfl, rfl⟩
  · simp only [call_type] at h
    obtain rfl : PyVal.vStr (py_str v) = w := by
      simpa using h
    exact ⟨rfl, rfl, rfl, rfl⟩

/-- On a plain scalar annotation `__post_init__` is exactly the scalar
conversion. -/
theorem post_init_scalar {u : PyType} (hu : is_scalar_kind u = true)
    (v : PyVal) : post_init_field u v = call_type u v := by
  cases u <;> simp [is_scalar_kind] at hu <;> rfl

/-- Pointwise reading of a successful elementwise coercion. -/
theorem map_coerce_forall {f : PyVal → Except PyErr PyVal} :
    ∀ {xs ys : List PyVal}, map_coerce f xs = .ok ys →
      List.Forall₂ (fun x y => f x = .ok y) xs ys := by
  intro xs
  induction xs with
  | nil => intro ys h; cases h; exact .nil
  | cons x xs ih =>
    intro ys h
    simp only [map_coerce] at h
    split at h
    · cases h
    · split at h
      · cases h
      · cases h
        exact .cons (by assumption) (ih (by assumption))

/-- Elementwise coercion succeeds identically on a list it fixes
pointwise. -/
theorem map_coerce_fixed {f : PyVal → Except PyErr PyVal} :
    ∀ {ys : List PyVal}, (∀ y ∈ ys, f y = .ok y) → map_coerce f ys = .ok ys := by
  intro ys
  induction ys with
  | nil => intro _; rfl
  | cons y ys ih =>
    intro h
    simp only [map_coerce]
    rw [h y (by simp), ih (fun z hz => h z (by simp [hz]))]

/-- The YAML round trip fixes a list it fixes pointwise. -/
theorem yaml_round_list_fixed :
    ∀ {ys : List PyVal}, (∀ y ∈ ys, yaml_round y = y) → yaml_round_list ys = ys := by
  intro ys
  induction ys with
  | nil => intro _; rfl
  | cons y ys ih =>
    intro h
    simp only [yaml_round_list]
    rw [h y (by simp), ih (fun z hz => h z (by simp [hz]))]

/-- Shape inversion for the specification-valid field types. -/
theorem spec_valid_cases {t : PyType} (ht : spec_valid_field_type t = true) :
    (is_scalar_kind t = true) ∨
    (∃ u, t = .unionType u [.noneT] ∧ is_scalar_kind u = true) ∨
    (∃ u, t = .generic .listT [u] ∧ is_scalar_kind u = true) ∨
    (∃ u, t = .generic .seqT [u] ∧ is_scalar_kind u = true) ∨
    (∃ u, t = .generic .setT [u] ∧ is_scalar_kind u = true) ∨
    (∃ u, t = .generic .tupleT [u, .ellipsisT] ∧ is_scalar_kind u = true) := by
  unfold spec_valid_field_type at ht
  rcases Bool.or_eq_true_iff.mp ht with h1 | h2
  · rcases Bool.or_eq_true_iff.mp h1 with h3 | h4
    · exact Or.inl h3
    · refine Or.inr (Or.inl ?_)
      split at h4
      · exact ⟨_, rfl, h4⟩
      · cases h4
  · split at h2
    · exact Or.inr (Or.inr (Or.inl ⟨_, rfl, h2⟩))
    · exact Or.inr (Or.inr (Or.inr (Or.inl ⟨_, rfl, h2⟩)))
    · exact Or.inr (Or.inr (Or.inr (Or.inr (Or.inl ⟨_, rfl, h2⟩))))
    · exact Or.inr (Or.inr (Or.inr (Or.inr (Or.inr ⟨_, rfl, h2⟩))))
    · cases h2

/-- Reduction of `__post_init__` on `Optional[u]` with `u` scalar:
`None` stays `None`, any other value goes through the scalar
conversion. -/
theorem post_init_union_scalar {u : PyType} (hu : is_scalar_kind u = true)
    (v : PyVal) :
    post_init_field (.unionType u [.noneT]) v =
      if is_none_val v then .ok .vNone else call_type u v := by
  cases u <;> simp [is_scalar_kind] at hu <;>
    simp [post_init_field, strip_union, topy, get_origin, get_args,
      in_valid_types, is_union_origin]

/-- On a scalar kind `_topy` is the identity (no origin to take). -/
theorem topy_scalar {u : PyType} (hu : is_scalar_kind u = true) :
    topy u = u := by
  cases u <;> simp [is_scalar_kind] at hu <;> rfl

theorem topy_generic (o : PyType) (args : List PyType) :
    topy (.generic o args) = o := rfl

theorem strip_union_generic (o : PyType) (args : List PyType) :
    strip_union (.generic o args) = .generic o args := rfl

theorem get_args_generic (o : PyType) (args : List PyType) :
    get_args (.generic o args) = args := rfl

theorem is_union_origin_list (args : List PyType) :
    is_union_origin (.generic .listT args) = false := rfl

theorem is_union_origin_tuple (args : List PyType) :
    is_union_origin (.generic .tupleT args) = false := rfl

/-- Reduction of `__post_init__` on `List[u]` with `u` scalar. -/
theorem post_init_list (u : PyType) (v : PyVal)
    (hu : is_scalar_kind u = true) :
    post_init_field (.generic .listT [u]) v =
      match py_iter v with
      | .error e => .error e
      | .ok xs =>
        match map_coerce (call_type u) xs with
        | .error e => .error e
        | .ok ys => .ok (.vList ys) := by
  have htopy := topy_scalar hu
  cases hiter : py_iter v with
  | error e =>
    simp [post_init_field, strip_union_generic, topy_generic,
      get_args_generic, in_valid_types, hiter]
  | ok xs =>
    cases hm : map_coerce (call_type u) xs with
    | error e =>
      simp [post_init_field, strip_union_generic, topy_generic,
        get_args_generic, in_valid_types, hiter, htopy, hm]
    | ok ys =>
      simp only [post_init_field, strip_union_generic, topy_generic,
        get_args_generic, in_valid_types, is_union_origin_list,
        Bool.false_and, Bool.not_true, ite_false, if_neg, hiter, htopy, hm]
      rfl

/-- Reduction of `__post_init__` on `Tuple[u, ...]` with `u` scalar. -/
theorem post_init_tuple (u : PyType) (v : PyVal)
    (hu : is_scalar_kind u = true) :
    post_init_field (.generic .tupleT [u, .ellipsisT]) v =
      match py_iter v with
      | .error e => .error e
      | .ok xs =>
        match map_coerce (call_type u) xs with
        | .error e => .error e
        | .ok ys => .ok (.vTuple ys) := by
  have htopy := topy_scalar hu
  cases hiter : py_iter v with
  | error e =>
    simp [post_init_field, strip_union_generic, topy_generic,
      get_args_generic, in_valid_types, hiter]
  | ok xs =>
    cases hm : map_coerce (call_type u) xs with
    | error e =>
      simp [post_init_field, strip_union_generic, topy_generic,
        get_args_generic, in_valid_types, hiter, htopy, hm]
    | ok ys =>
      simp only [post_init_field, strip_union_generic, topy_generic,
        get_args_generic, in_valid_types, is_union_origin_tuple,
        Bool.false_and, Bool.not_true, ite_false, if_neg, hiter, htopy, hm]
      rfl

/-- A declared type whose stripped origin kind is outside `valid_types`
makes `__post_init__` raise the schema `TypeError` before looking at
the value. -/
theorem post_init_invalid {t : PyType}
    (h : in_valid_types (topy (strip_union t)) = false) (v : PyVal) :
    post_init_field t v = .error (.schemaTypeError t invalid_type_msg) := by
  simp [post_init_field, h]

/-- Membership on the right of a pointwise relation. -/
theorem forall₂_right_mem {α β : Type} {R : α → β → Prop}
    {xs : List α} {ys : List β} (h : List.Forall₂ R xs ys) :
    ∀ y ∈ ys, ∃ x ∈ xs, R x y := by
  induction h with
  | nil => intro y hy; cases hy
  | cons hr _ ih =>
    intro y hy
    rcases hy with _ | ⟨_, hy⟩
    · exact ⟨_, by simp, hr⟩
    · obtain ⟨x, hx, hxy⟩ := ih y hy
      exact ⟨x, by simp [hx], hxy⟩

/-- Field-level stability: on a specification-valid declared type, a
value that `__post_init__` has produced once is reproduced both from
itself and from its YAML round trip. -/
theorem post_init_stable {t : PyType} (ht : spec_valid_field_type t = true)
    {v w : PyVal} (h : post_init_field t v = .ok w) :
    post_init_field t w = .ok w ∧ post_init_field t (yaml_round w) = .ok w := by
  rcases spec_valid_cases ht with hsc | ⟨u, rfl, hu⟩ | ⟨u, rfl, hu⟩ |
    ⟨u, rfl, hu⟩ | ⟨u, rfl, hu⟩ | ⟨u, rfl, hu⟩
  · rw [post_init_scalar hsc] at h
    obtain ⟨hidem, hyaml, _, _⟩ := scalar_stable hsc h
    rw [post_init_scalar hsc, post_init_scalar hsc, hyaml]
    exact ⟨hidem, hidem⟩
  · rw [post_init_union_scalar hu] at h
    split at h
    · cases h
      exact ⟨by rw [post_init_union_scalar hu]; rfl,
        by rw [post_init_union_scalar hu]; rfl⟩
    · obtain ⟨hidem, hyaml, hnone, _⟩ := scalar_stable hu h
      constructor
      · rw [post_init_union_scalar hu, if_neg (by simp [hnone]), hidem]
      · rw [hyaml, post_init_union_scalar hu, if_neg (by simp [hnone]), hidem]
  · rw [post_init_list u v hu] at h
    split at h
    · cases h
    · rename_i xs hiter
      split at h
      · cases h
      · rename_i ys hm
        cases h
        have hall := map_coerce_forall hm
        have hfix : ∀ y ∈ ys, call_type u y = .ok y := by
          intro y hy
          obtain ⟨x, _, hxy⟩ := forall₂_right_mem hall y hy
          exact (scalar_stable hu hxy).1
        have hyfix : ∀ y ∈ ys, yaml_round y = y := by
          intro y hy
          obtain ⟨x, _, hxy⟩ := forall₂_right_mem hall y hy
          exact (scalar_stable hu hxy).2.1
        constructor
        · rw [post_init_list u _ hu]
          simp [py_iter, map_coerce_fixed hfix]
        · rw [yaml_round, yaml_round_list_fixed hyfix, post_init_list u _ hu]
          simp [py_iter, map_coerce_fixed hfix]
  · rw [post_init_invalid (t := .generic .seqT [u]) rfl] at h
    cases h
  · rw [post_init_invalid (t := .generic .setT [u]) rfl] at h
    cases h
  · rw [post_init_tuple u v hu] at h
    split at h
    · cases h
    · rename_i xs hiter
      split at h
      · cases h
      · rename_i ys hm
        cases h
        have hall := map_coerce_forall hm
        have hfix : ∀ y ∈ ys, call_type u y = .ok y := by
          intro y hy
          obtain ⟨x, _, hxy⟩ := forall₂_right_mem hall y hy
          exact (scalar_stable hu hxy).1
        have hyfix : ∀ y ∈ ys, yaml_round y = y := by
          intro y hy
          obtain ⟨x, _, hxy⟩ := forall₂_right_mem hall y hy
          exact (scalar_stable hu hxy).2.1
        constructor
        · rw [post_init_tuple u _ hu]
          simp [py_iter, map_coerce_fixed hfix]
        · rw [yaml_round, yaml_round_list_fixed hyfix, post_init_tuple u _ hu]
          simp [py_iter, map_coerce_fixed hfix]

/-- Pointwise introduction rule for construction: if every field can
draw a raw value from the keyword mapping that coerces to the intended
stored value, construction succeeds with exactly those stored values. -/
theorem mk_config_pointwise_intro :
    ∀ {schema : List FieldSpec} {inst kw : List (String × PyVal)},
      List.Forall₂ (fun (f : FieldSpec) (p : String × PyVal) =>
        p.1 = f.name ∧ ∃ raw, get_raw f kw = .ok raw ∧
          post_init_field f.type raw = .ok p.2) schema inst →
      mk_config schema kw = .ok inst := by
  intro schema
  induction schema with
  | nil =>
    intro inst kw h
    cases h
    rfl
  | cons f fs ih =>
    intro inst kw h
    rcases h with _ | ⟨⟨hname, raw, hraw, hpost⟩, htail⟩
    rename_i p ps
    simp only [mk_config, hraw, hpost, ih htail]
    cases p
    cases hname
    rfl

/-- Pointwise elimination rule for a successful construction. -/
theorem mk_config_pointwise_elim :
    ∀ {schema : List FieldSpec} {inst kw : List (String × PyVal)},
      mk_config schema kw = .ok inst →
      List.Forall₂ (fun (f : FieldSpec) (p : String × PyVal) =>
        p.1 = f.name ∧ ∃ raw, get_raw f kw = .ok raw ∧
          post_init_field f.type raw = .ok p.2) schema inst := by
  intro schema
  induction schema with
  | nil =>
    intro inst kw h
    cases h
    exact .nil
  | cons f fs ih =>
    intro inst kw h
    simp only [mk_config] at h
    split at h
    · cases h
    · rename_i raw hraw
      split at h
      · cases h
      · rename_i v hpost
        split at h
        · cases h
        · rename_i rest hrest
          cases h
          exact .cons ⟨rfl, raw, hraw, hpost⟩ (ih hrest)

/-- Pointwise relation transfer with access to membership. -/
theorem forall₂_imp_mem {α β : Type} {R S : α → β → Prop} :
    ∀ {xs : List α} {ys : List β}, List.Forall₂ R xs ys →
      (∀ a b, a ∈ xs → b ∈ ys → R a b → S a b) → List.Forall₂ S xs ys := by
  intro xs ys h
  induction h with
  | nil => intro _; exact .nil
  | cons hr ht ih =>
    intro himp
    refine .cons (himp _ _ (by simp) (by simp) hr) (ih ?_)
    intro a b ha hb
    exact himp a b (by simp [ha]) (by simp [hb])

/-- The first components across a construction are the field names. -/
theorem forall₂_fst_names {schema : List FieldSpec}
    {inst : List (String × PyVal)} {R : FieldSpec → String × PyVal → Prop}
    (hR : ∀ f p, R f p → p.1 = f.name)
    (h : List.Forall₂ R schema inst) :
    inst.map Prod.fst = schema.map FieldSpec.name := by
  induction h with
  | nil => rfl
  | cons hr _ ih => simp [hR _ _ hr, ih]

/-- Lookup in an association list with pairwise distinct keys finds
each entry. -/
theorem lookup_pairs_self :
    ∀ {l : List (String × PyVal)}, (l.map Prod.fst).Nodup →
      ∀ p ∈ l, lookup_kw l p.1 = some p.2 := by
  intro l
  induction l with
  | nil => intro _ p hp; cases hp
  | cons q l ih =>
    intro hnd p hp
    rcases List.mem_cons.mp hp with rfl | hp2
    · simp [lookup_kw]
    · have hq : q.1 ≠ p.1 := by
        intro he
        have : p.1 ∈ l.map Prod.fst := List.mem_map_of_mem Prod.fst hp2
        rw [List.map_cons] at hnd
        exact (List.nodup_cons.mp hnd).1 (he ▸ this)
      have hne : (q.1 == p.1) = false := beq_eq_false_iff_ne.mpr hq
      simp only [lookup_kw, hne]
      exact ih (List.nodup_cons.mp (by rw [List.map_cons] at hnd; exact hnd)).2 p hp2

/-- Lookup through a value-mapping of an association list. -/
theorem lookup_kw_map_value (g : PyVal → PyVal) :
    ∀ (l : List (String × PyVal)) (n : String),
      lookup_kw (l.map (fun p => (p.1, g p.2))) n = (lookup_kw l n).map g := by
  intro l n
  induction l with
  | nil => rfl
  | cons q l ih =>
    by_cases hq : (q.1 == n) = true
    · simp [lookup_kw, hq]
    · simp only [Bool.not_eq_true] at hq
      simp [lookup_kw, hq, ih]

/-- Updating a dict with no overrides changes nothing. -/
theorem dict_update_nil (d : List (String × PyVal)) : dict_update d [] = d := by
  simp [dict_update, lookup_kw]

/-- Lookup through a key filter. -/
theorem lookup_kw_filter (q : String → Bool) :
    ∀ (l : List (String × PyVal)) (n : String), q n = true →
      lookup_kw (l.filter (fun p => q p.1)) n = lookup_kw l n := by
  intro l n hq
  induction l with
  | nil => rfl
  | cons p l ih =>
    by_cases hp : (p.1 == n) = true
    · have : q p.1 = true := by rw [eq_of_beq hp]; exact hq
      simp [lookup_kw, List.filter_cons, this, hp]
    · simp only [Bool.not_eq_true] at hp
      by_cases hqp : q p.1 = true
      · simp [lookup_kw, List.filter_cons, hqp, hp, ih]
      · simp only [Bool.not_eq_true] at hqp
        simp [lookup_kw, List.filter_cons, hqp, hp, ih]

/-- Claim C1, counterexample: on the schema exactly as stated - `lr:
float = 0.001`, `seeds: Sequence[int] = (1, 2, 3)` - with process
arguments `--lr 0.01 --seeds 4 5`, `from_entrypoint` does not return an
instance at all: the origin of `typing.Sequence[int]` is
`collections.abc.Sequence`, which is not in `valid_types`, so
construction raises the schema `TypeError`. -/
theorem C1_counterexample :
    from_entrypoint
      [⟨"lr", .floatT, some (.vFloat 1 3)⟩,
       ⟨"seeds", .generic .seqT [.intT],
        some (.vTuple [.vInt 1, .vInt 2, .vInt 3])⟩]
      ["--lr", "0.01", "--seeds", "4", "5"] =
      .error (.schemaTypeError (.generic .seqT [.intT]) invalid_type_msg) := rfl

/-- Claim C1, amended: with the seeds field declared by a supported
flat container type (tuple of int, `Tuple[int, ...]`) instead of the
abstract `Sequence[int]`, the stated scenario holds: `--lr 0.01 --seeds
4 5` yields `lr == 0.01` and `seeds == (4, 5)`, the declared container
kind (tuple) is preserved and every element is coerced to int. -/
theorem C1_amended :
    from_entrypoint
      [⟨"lr", .floatT, some (.vFloat 1 3)⟩,
       ⟨"seeds", .generic .tupleT [.intT, .ellipsisT],
        some (.vTuple [.vInt 1, .vInt 2, .vInt 3])⟩]
      ["--lr", "0.01", "--seeds", "4", "5"] =
      .ok [("lr", .vFloat 1 2), ("seeds", .vTuple [.vInt 4, .vInt 5])] := rfl

/-- Claim C2, counterexample: a schema field with the nested container
type `List[List[int]]` does not raise at construction - the outer
origin `list` passes validation and the instance is built silently,
contradicting the claim that nested containers fail with a type error
at construction time. -/
theorem C2_counterexample :
    mk_config [⟨"grid", .generic .listT [.generic .listT [.intT]], none⟩]
      [("grid", .vList [.vList [.vInt 1, .vInt 2], .vList [.vInt 3]])] =
      .ok [("grid", .vList [.vList [.vInt 1, .vInt 2], .vList [.vInt 3]])] := rfl

/-- Success test on a construction result (Python: no exception was
raised). -/
def is_ok_exc {a : Type} : Except PyErr a -> Bool
  | .ok _ => true
  | .error _ => false

/-- Claim C2, amended: construction is rejected exactly on origin kind.
For every schema declaring at least one field whose
`Union`/`Optional`-stripped type has an origin kind outside
`valid_types = (int, float, bool, str, list, tuple)` - e.g. an
arbitrary object type or a mapping type - constructing any instance
fails (never returns `ok`).  Nested containers with a supported outer
kind, and heterogeneous unions (resolved to their first option), are
not rejected. -/
theorem C2_amended (schema : List FieldSpec) (kwargs : List (String × PyVal))
    (h : schema.any
      (fun f => !(in_valid_types (topy (strip_union f.type)))) = true) :
    is_ok_exc (mk_config schema kwargs) = false := by
  induction schema with
  | nil => simp at h
  | cons f fs ih =>
    cases hraw : get_raw f kwargs with
    | error e => simp [mk_config, hraw, is_ok_exc]
    | ok raw =>
      cases hpost : post_init_field f.type raw with
      | error e => simp [mk_config, hraw, hpost, is_ok_exc]
      | ok v =>
        cases hrest : mk_config fs kwargs with
        | error e => simp [mk_config, hraw, hpost, hrest, is_ok_exc]
        | ok rest =>
          simp only [List.any_cons, Bool.or_eq_true] at h
          rcases h with hflag | htail
          · rw [post_init_invalid (by simpa using hflag) raw] at hpost
            cases hpost
          · have hfs := ih htail
            rw [hrest] at hfs
            simp [is_ok_exc] at hfs

/-- Claim C2, witness for the amended theorem at a concrete mapping-typed
field. -/
theorem C2_witness :
    is_ok_exc (mk_config [⟨"table", .dictT, some .vNone⟩] []) = false :=
  C2_amended [⟨"table", .dictT, some .vNone⟩] [] (by decide)

/-- Claim C6: the code rejects set-typed fields.  `set` is missing from
`_ValidType = Union[int, float, bool, str, list, tuple]`, so a schema
declaring `ids: Set[int] = {1, 2}` raises the schema `TypeError` at
construction although the class docstring names `set` among the
supported containers. -/
theorem C6_set_field_rejected :
    mk_config
      [⟨"ids", .generic .setT [.intT], some (.vSet [.vInt 1, .vInt 2])⟩] [] =
      .error (.schemaTypeError (.generic .setT [.intT]) invalid_type_msg) := rfl

/-- Claim C7, counterexample: the registered flag keeps the underscore
of the field name (`--use_gpu`), and argparse does not translate dashes
in flag spellings, so the process argument `--use-gpu` is an unknown
flag: `parse_known_args` drops it and `use_gpu` keeps its default
`False` instead of becoming `True` as the claim states. -/
theorem C7_counterexample :
    from_entrypoint [⟨"use_gpu", .boolT, some (.vBool false)⟩]
        ["--use-gpu"] = .ok [("use_gpu", .vBool false)] ∧
      PyVal.vBool false ≠ PyVal.vBool true := by
  exact ⟨rfl, by simp⟩

/-- Claim C7, amended: the boolean on/off switch exists but is spelled
with the field name verbatim: `--use_gpu` yields `use_gpu == True` and
`--no-use_gpu` yields `use_gpu == False` (the dashed spellings are
simply unrecognised and leave the default). -/
theorem C7_amended :
    from_entrypoint [⟨"use_gpu", .boolT, some (.vBool false)⟩]
        ["--use_gpu"] = .ok [("use_gpu", .vBool true)] ∧
      from_entrypoint [⟨"use_gpu", .boolT, some (.vBool false)⟩]
        ["--no-use_gpu"] = .ok [("use_gpu", .vBool false)] :=
  ⟨rfl, rfl⟩

/-- Claim C9: on a field of scalar kind bool, `__post_init__` coerces
every raw value with Python truthiness (`bool(value)`), not by parsing
the text; in particular the string "False" is non-empty, hence truthy,
and is stored as `True`. -/
theorem C9_bool_truthiness :
    (∀ v : PyVal, post_init_field .boolT v = .ok (.vBool (truthy v))) ∧
      post_init_field .boolT (.vStr "False") = .ok (.vBool true) := by
  refine ⟨fun v => ?_, rfl⟩
  rfl

/-- Claim C3: round trip.  For every instance of a schema whose field
types are all specification-valid (with pairwise distinct field names,
as dataclasses guarantee), saving and loading back with no overrides
reconstructs every stored field value exactly: `load` of the mapping
that `save` wrote returns the same instance. -/
theorem C3_save_load_roundtrip (schema : List FieldSpec)
    (kwargs inst : List (String × PyVal))
    (hvalid : ∀ f ∈ schema, spec_valid_field_type f.type = true)
    (hnodup : (schema.map FieldSpec.name).Nodup)
    (hmk : mk_config schema kwargs = .ok inst) :
    load_model schema (save_then_read inst) [] = .ok inst := by
  have hpairs := mk_config_pointwise_elim hmk
  have hnames : inst.map Prod.fst = schema.map FieldSpec.name :=
    forall₂_fst_names (fun f p hp => hp.1) hpairs
  have hinst_nodup : (inst.map Prod.fst).Nodup := by rw [hnames]; exact hnodup
  have hfile_keys :
      (save_then_read inst).map Prod.fst = inst.map Prod.fst := by
    simp [save_then_read]
  have hfilter :
      (save_then_read inst).filter
        (fun p => (schema.map FieldSpec.name).contains p.1) =
        save_then_read inst := by
    refine List.filter_eq_self.mpr ?_
    intro p hp
    have : p.1 ∈ (save_then_read inst).map Prod.fst :=
      List.mem_map_of_mem Prod.fst hp
    rw [hfile_keys, hnames] at this
    exact List.elem_iff.mpr this
  have hforall : List.Forall₂ (fun (f : FieldSpec) (p : String × PyVal) =>
      p.1 = f.name ∧ ∃ raw, get_raw f (save_then_read inst) = .ok raw ∧
        post_init_field f.type raw = .ok p.2) schema inst := by
    refine forall₂_imp_mem hpairs ?_
    rintro f p hf hp ⟨hname, raw, hraw, hpost⟩
    refine ⟨hname, yaml_round p.2, ?_, (post_init_stable (hvalid f hf) hpost).2⟩
    have hlk : lookup_kw (save_then_read inst) f.name = some (yaml_round p.2) := by
      rw [← hname]
      show lookup_kw (inst.map (fun p => (p.1, yaml_round p.2))) p.1 = _
      rw [lookup_kw_map_value, lookup_pairs_self hinst_nodup p hp]
      rfl
    simp [get_raw, hlk]
  show mk_config schema _ = .ok inst
  rw [dict_update_nil, hfilter]
  exact mk_config_pointwise_intro hforall

/-- Claim C3, witness: a concrete valid schema with a float, a tuple of
ints, a string and an optional int holding `None`, round-tripped. -/
theorem C3_witness :
    load_model
      [⟨"lr", .floatT, none⟩,
       ⟨"seeds", .generic .tupleT [.intT, .ellipsisT], none⟩,
       ⟨"run_name", .strT, none⟩,
       ⟨"budget", .unionType .intT [.noneT], some .vNone⟩]
      (save_then_read
        [("lr", .vFloat 1 2), ("seeds", .vTuple [.vInt 4, .vInt 5]),
         ("run_name", .vStr "run1"), ("budget", .vNone)]) [] =
      .ok [("lr", .vFloat 1 2), ("seeds", .vTuple [.vInt 4, .vInt 5]),
        ("run_name", .vStr "run1"), ("budget", .vNone)] :=
  C3_save_load_roundtrip
    [⟨"lr", .floatT, none⟩,
     ⟨"seeds", .generic .tupleT [.intT, .ellipsisT], none⟩,
     ⟨"run_name", .strT, none⟩,
     ⟨"budget", .unionType .intT [.noneT], some .vNone⟩]
    [("lr", .vFloat 1 2), ("seeds", .vList [.vInt 4, .vInt 5]),
     ("run_name", .vStr "run1")]
    [("lr", .vFloat 1 2), ("seeds", .vTuple [.vInt 4, .vInt 5]),
     ("run_name", .vStr "run1"), ("budget", .vNone)]
    (by decide) (by decide) (by rfl)

/-- Claim C10: the coercion pass is idempotent.  For every instance of
a specification-valid schema (distinct field names) built by a
successful construction, rebuilding the same schema from the stored
field values succeeds and stores exactly the same values. -/
theorem C10_coercion_idempotent (schema : List FieldSpec)
    (kwargs inst : List (String × PyVal))
    (hvalid : ∀ f ∈ schema, spec_valid_field_type f.type = true)
    (hnodup : (schema.map FieldSpec.name).Nodup)
    (hmk : mk_config schema kwargs = .ok inst) :
    mk_config schema inst = .ok inst := by
  have hpairs := mk_config_pointwise_elim hmk
  have hnames : inst.map Prod.fst = schema.map FieldSpec.name :=
    forall₂_fst_names (fun f p hp => hp.1) hpairs
  have hinst_nodup : (inst.map Prod.fst).Nodup := by rw [hnames]; exact hnodup
  refine mk_config_pointwise_intro (forall₂_imp_mem hpairs ?_)
  rintro f p hf hp ⟨hname, raw, hraw, hpost⟩
  refine ⟨hname, p.2, ?_, (post_init_stable (hvalid f hf) hpost).1⟩
  have hlk : lookup_kw inst f.name = some p.2 := by
    rw [← hname]
    exact lookup_pairs_self hinst_nodup p hp
  simp [get_raw, hlk]

/-- Claim C10, witness: rebuilding a concrete constructed instance from
its own stored values. -/
theorem C10_witness :
    mk_config
      [⟨"lr", .floatT, none⟩,
       ⟨"seeds", .generic .listT [.intT], none⟩,
       ⟨"flag", .boolT, some (.vBool false)⟩]
      [("lr", .vFloat 3 1), ("seeds", .vList [.vInt 1, .vInt 2]),
       ("flag", .vBool true)] =
      .ok [("lr", .vFloat 3 1), ("seeds", .vList [.vInt 1, .vInt 2]),
        ("flag", .vBool true)] :=
  C10_coercion_idempotent
    [⟨"lr", .floatT, none⟩,
     ⟨"seeds", .generic .listT [.intT], none⟩,
     ⟨"flag", .boolT, some (.vBool false)⟩]
    [("lr", .vFloat 3 1), ("seeds", .vTuple [.vInt 1, .vInt 2]),
     ("flag", .vStr "yes")]
    [("lr", .vFloat 3 1), ("seeds", .vList [.vInt 1, .vInt 2]),
     ("flag", .vBool true)]
    (by decide) (by decide) (by rfl)

/-- Claim C5, counterexample: `Optional[List[int]]` with raw value
`None` does not stay `None` - the container branch runs first and
`map(int, None)` raises `TypeError` on the non-iterable `None`, so
construction fails although the claim allows any supported
flat-container `T`. -/
theorem C5_counterexample :
    mk_config
      [⟨"xs", .unionType (.generic .listT [.intT]) [.noneT], some .vNone⟩]
      [] = .error (.typeError "argument is not iterable") := rfl

/-- Claim C5, amended: for `Optional[T]` with `T` a supported scalar
kind, a raw value `None` is kept as `None` by the field coercion step
of `__post_init__` (scalar coercion is skipped); for flat-container `T`
the elementwise coercion raises `TypeError` on `None` first, so the
guarantee holds for scalar `T` only. -/
theorem C5_amended (u : PyType) (hu : is_scalar_kind u = true) :
    post_init_field (.unionType u [.noneT]) .vNone = .ok .vNone := by
  rw [post_init_union_scalar hu]
  rfl

/-- Claim C5, witness: `Optional[int]` keeps `None`. -/
theorem C5_witness :
    post_init_field (.unionType .intT [.noneT]) .vNone = .ok .vNone :=
  C5_amended .intT (by decide)

/-- Lookup distributes over list append. -/
theorem lookup_kw_append (a b : List (String × PyVal)) (n : String) :
    lookup_kw (a ++ b) n =
      match lookup_kw a n with
      | some v => some v
      | none => lookup_kw b n := by
  induction a with
  | nil => rfl
  | cons p a ih =>
    by_cases hp : (p.1 == n) = true
    · simp [lookup_kw, hp]
    · simp only [Bool.not_eq_true] at hp
      simp [lookup_kw, hp, ih]

/-- Lookup through the entry-updating map of `dict.update`. -/
theorem lookup_kw_map_entry (kw : List (String × PyVal)) :
    ∀ (d : List (String × PyVal)) (n : String),
      lookup_kw
        (d.map (fun p =>
          match lookup_kw kw p.1 with
          | some v => (p.1, v)
          | none => p)) n =
      match lookup_kw d n with
      | none => none
      | some v0 =>
        some (match lookup_kw kw n with
          | some v => v
          | none => v0) := by
  intro d
  induction d with
  | nil => intro n; rfl
  | cons p d ih =>
    intro n
    by_cases hp : (p.1 == n) = true
    · have hpn : p.1 = n := eq_of_beq hp
      cases hkw : lookup_kw kw n with
      | some v =>
        simp [lookup_kw, List.map_cons, hpn, hkw]
      | none =>
        simp [lookup_kw, List.map_cons, hpn, hkw]
    · simp only [Bool.not_eq_true] at hp
      cases hkwp : lookup_kw kw p.1 with
      | some v => simp [lookup_kw, List.map_cons, hkwp, hp, ih]
      | none => simp [lookup_kw, List.map_cons, hkwp, hp, ih]

/-- A key that lookup misses matches no entry. -/
theorem lookup_none_any {d : List (String × PyVal)} {n : String}
    (h : lookup_kw d n = none) :
    d.any (fun p => p.1 == n) = false := by
  induction d with
  | nil => rfl
  | cons p d ih =>
    by_cases hp : (p.1 == n) = true
    · simp [lookup_kw, hp] at h
    · simp only [Bool.not_eq_true] at hp
      simp only [lookup_kw, hp] at h
      simp [hp, ih h]

/-- Lookup after `dict.update`: the override mapping wins on key
collision, the base mapping answers otherwise. -/
theorem lookup_dict_update (d kw : List (String × PyVal)) (n : String) :
    lookup_kw (dict_update d kw) n =
      match lookup_kw kw n with
      | some w => some w
      | none => lookup_kw d n := by
  rw [dict_update, lookup_kw_append, lookup_kw_map_entry]
  cases hd : lookup_kw d n with
  | some v0 =>
    cases hkw : lookup_kw kw n <;> simp
  | none =>
    have hany := lookup_none_any hd
    rw [lookup_kw_filter (fun k => !(d.any (fun p => p.1 == k))) kw n
      (by simp [hany])]
    cases hkw : lookup_kw kw n <;> simp

/-- Claim C4, counterexample: an override value is not stored verbatim
- it goes through the field coercion like any raw value.  Overriding
the int field `x` with the string "7" stores the int 7, not the string
"7", so the loaded field does not equal the override value. -/
theorem C4_counterexample :
    load_model [⟨"x", .intT, some (.vInt 0)⟩]
        [("x", .vInt 0)] [("x", .vStr "7")] = .ok [("x", .vInt 7)] ∧
      PyVal.vInt 7 ≠ PyVal.vStr "7" :=
  ⟨rfl, by simp⟩

/-- Claim C4, amended: when `load` succeeds, each field stores the
declared-type coercion of the override value when the field is
overridden, of the file value when the field is only in the file, and
of the declared default when it is in neither (so the stored value
equals the override or file value exactly when that value is already in
coerced form); and any keys in the file that are not declared field
names are dropped silently: adding them to the file leaves the result
unchanged and raises no error. -/
theorem C4_amended (schema : List FieldSpec)
    (file ov extra inst : List (String × PyVal))
    (hsub : ∀ p ∈ ov, p.1 ∈ schema.map FieldSpec.name)
    (hextra : ∀ p ∈ extra, p.1 ∉ schema.map FieldSpec.name)
    (hload : load_model schema file ov = .ok inst) :
    List.Forall₂ (fun (f : FieldSpec) (p : String × PyVal) =>
      p.1 = f.name ∧
        ((∃ v, lookup_kw ov f.name = some v ∧
            post_init_field f.type v = .ok p.2) ∨
         (lookup_kw ov f.name = none ∧
            ∃ v, lookup_kw file f.name = some v ∧
              post_init_field f.type v = .ok p.2) ∨
         (lookup_kw ov f.name = none ∧ lookup_kw file f.name = none ∧
            ∃ d, f.default = some d ∧
              post_init_field f.type d = .ok p.2))) schema inst ∧
      load_model schema (file ++ extra) ov = .ok inst := by
  constructor
  · have hpairs := mk_config_pointwise_elim hload
    refine forall₂_imp_mem hpairs ?_
    rintro f p hf hp ⟨hname, raw, hraw, hpost⟩
    refine ⟨hname, ?_⟩
    have hknown : (schema.map FieldSpec.name).contains f.name = true :=
      List.elem_iff.mpr (List.mem_map_of_mem FieldSpec.name hf)
    have hfil :
        lookup_kw
          ((dict_update file ov).filter
            (fun p => (schema.map FieldSpec.name).contains p.1)) f.name =
          lookup_kw (dict_update file ov) f.name :=
      lookup_kw_filter (fun k => (schema.map FieldSpec.name).contains k)
        (dict_update file ov) f.name hknown
    rw [get_raw, hfil, lookup_dict_update] at hraw
    cases hov : lookup_kw ov f.name with
    | some w =>
      rw [hov] at hraw
      cases hraw
      exact Or.inl ⟨_, rfl, hpost⟩
    | none =>
      rw [hov] at hraw
      cases hfl : lookup_kw file f.name with
      | some v =>
        rw [hfl] at hraw
        cases hraw
        exact Or.inr (Or.inl ⟨rfl, _, rfl, hpost⟩)
      | none =>
        rw [hfl] at hraw
        cases hdf : f.default with
        | some d =>
          rw [hdf] at hraw
          cases hraw
          exact Or.inr (Or.inr ⟨rfl, rfl, _, rfl, hpost⟩)
        | none =>
          rw [hdf] at hraw
          cases hraw
  · have heq : load_model schema (file ++ extra) ov =
        load_model schema file ov := by
      show mk_config _ _ = mk_config _ _
      congr 1
      rw [dict_update, dict_update, List.map_append]
      have hkey : ∀ p : String × PyVal,
          ((match lookup_kw ov p.1 with
            | some v => (p.1, v)
            | none => p) : String × PyVal).1 = p.1 := by
        intro p
        cases lookup_kw ov p.1 <;> rfl
      have hdrop :
          (extra.map (fun p =>
            match lookup_kw ov p.1 with
            | some v => (p.1, v)
            | none => p)).filter
            (fun p => (schema.map FieldSpec.name).contains p.1) = [] := by
        refine List.filter_eq_nil_iff.mpr ?_
        intro a ha
        obtain ⟨p, hp, rfl⟩ := List.mem_map.mp ha
        rw [hkey p]
        intro hc
        exact hextra p hp (List.elem_iff.mp hc)
      have hcongr :
          ov.filter (fun q => !((file ++ extra).any (fun p => p.1 == q.1))) =
          ov.filter (fun q => !(file.any (fun p => p.1 == q.1))) := by
        refine List.filter_congr ?_
        intro q hq
        have hnk : extra.any (fun p => p.1 == q.1) = false := by
          rw [Bool.eq_false_iff]
          intro hc
          obtain ⟨p, hp, hpq⟩ := List.any_eq_true.mp hc
          exact hextra p hp ((eq_of_beq hpq) ▸ hsub q hq)
        simp [List.any_append, hnk]
      rw [hcongr, List.append_assoc, List.filter_append, List.filter_append,
        List.filter_append, hdrop]
      simp
    rw [heq]
    exact hload

/-- Claim C4, witness for the amended theorem: int field `a` overridden
with an already-coerced int, str field `b` taken from the file, and an
unknown file key `junk` dropped without effect. -/
theorem C4_witness :
    List.Forall₂ (fun (f : FieldSpec) (p : String × PyVal) =>
      p.1 = f.name ∧
        ((∃ v, lookup_kw [("a", PyVal.vInt 5)] f.name = some v ∧
            post_init_field f.type v = .ok p.2) ∨
         (lookup_kw [("a", PyVal.vInt 5)] f.name = none ∧
            ∃ v, lookup_kw [("a", PyVal.vInt 1), ("b", PyVal.vStr "x")]
              f.name = some v ∧ post_init_field f.type v = .ok p.2) ∨
         (lookup_kw [("a", PyVal.vInt 5)] f.name = none ∧
            lookup_kw [("a", PyVal.vInt 1), ("b", PyVal.vStr "x")]
              f.name = none ∧
            ∃ d, f.default = some d ∧ post_init_field f.type d = .ok p.2)))
      [⟨"a", .intT, some (.vInt 0)⟩, ⟨"b", .strT, none⟩]
      [("a", PyVal.vInt 5), ("b", PyVal.vStr "x")] ∧
      load_model [⟨"a", .intT, some (.vInt 0)⟩, ⟨"b", .strT, none⟩]
        ([("a", PyVal.vInt 1), ("b", PyVal.vStr "x")] ++ [("junk", PyVal.vInt 9)])
        [("a", PyVal.vInt 5)] =
        .ok [("a", PyVal.vInt 5), ("b", PyVal.vStr "x")] :=
  C4_amended
    [⟨"a", .intT, some (.vInt 0)⟩, ⟨"b", .strT, none⟩]
    [("a", PyVal.vInt 1), ("b", PyVal.vStr "x")]
    [("a", PyVal.vInt 5)]
    [("junk", PyVal.vInt 9)]
    [("a", PyVal.vInt 5), ("b", PyVal.vStr "x")]
    (by decide) (by decide) (by rfl)

theorem get_args_scalar {u : PyType} (hu : is_scalar_kind u = true) :
    get_args u = [] := by
  cases u <;> simp [is_scalar_kind] at hu <;> rfl

theorem strip_union_scalar {u : PyType} (hu : is_scalar_kind u = true) :
    strip_union u = u := by
  cases u <;> simp [is_scalar_kind] at hu <;> rfl

theorem add_argument_dest (f : FieldSpec) : (add_argument f).dest = f.name := rfl

theorem add_argument_default (f : FieldSpec) :
    (add_argument f).default =
      match f.default with
      | some d => d
      | none => .vMissing := rfl

theorem add_argument_typeT (f : FieldSpec) :
    (add_argument f).typeT =
      match get_args (strip_union f.type) with
      | [] => topy (strip_union f.type)
      | a :: _ => topy a := rfl

/-- On a specification-valid field whose declared default string is a
fixed point of the field coercion, the argparse pass of the string
default through the action type (`type(default)`) is also neutral. -/
theorem str_default_conv {t : PyType} (hv : spec_valid_field_type t = true)
    {s : String} (h : post_init_field t (.vStr s) = .ok (.vStr s)) :
    call_type
      (match get_args (strip_union t) with
       | [] => topy (strip_union t)
       | a :: _ => topy a) (.vStr s) = .ok (.vStr s) := by
  rcases spec_valid_cases hv with hsc | ⟨u, rfl, hu⟩ | ⟨u, rfl, hu⟩ |
    ⟨u, rfl, hu⟩ | ⟨u, rfl, hu⟩ | ⟨u, rfl, hu⟩
  · rw [strip_union_scalar hsc, get_args_scalar hsc, topy_scalar hsc]
    rw [post_init_scalar hsc] at h
    exact h
  · rw [show strip_union (.unionType u [.noneT]) = u from rfl,
      get_args_scalar hu, topy_scalar hu]
    rw [post_init_union_scalar hu] at h
    simpa using h
  · rw [post_init_list u _ hu] at h
    split at h
    · cases h
    · split at h
      · cases h
      · simp at h
  · rw [post_init_invalid (t := .generic .seqT [u]) rfl] at h
    cases h
  · rw [post_init_invalid (t := .generic .setT [u]) rfl] at h
    cases h
  · rw [post_init_tuple u _ hu] at h
    split at h
    · cases h
    · split at h
      · cases h
      · simp at h

/-- With an empty argument list the namespace is exactly the declared
defaults, provided every declared default is a fixed point of its
field coercion (for a plain-string default argparse additionally pushes
it through the action type, which `str_default_conv` shows is then
neutral). -/
theorem assemble_ns_empty (schema : List FieldSpec)
    (h : ∀ f ∈ schema, spec_valid_field_type f.type = true ∧
      ∃ d, f.default = some d ∧ post_init_field f.type d = .ok d) :
    assemble_ns [] (schema.map add_argument) =
      .ok (schema.map (fun f =>
        (f.name, match f.default with
          | some d => d
          | none => .vMissing))) := by
  induction schema with
  | nil => rfl
  | cons f fs ih =>
    obtain ⟨hv, d, hdf, hfix⟩ := h f (by simp)
    have hrest := ih (fun g hg => h g (by simp [hg]))
    simp only [List.map_cons, assemble_ns, lookup_last, lookup_kw,
      List.reverse_nil, add_argument_default, hdf, hrest]
    cases d with
    | vStr s =>
      have hc := str_default_conv hv hfix
      rw [← add_argument_typeT] at hc
      simp [hc, add_argument_dest]
    | vNone => rfl
    | vMissing => rfl
    | vInt n => rfl
    | vBool b => rfl
    | vFloat a b => rfl
    | vList xs => rfl
    | vTuple xs => rfl
    | vSet xs => rfl

/-- Construction only sees the keyword mapping through per-field raw
lookup. -/
theorem mk_config_ext (schema : List FieldSpec)
    (kw1 kw2 : List (String × PyVal))
    (h : ∀ f ∈ schema, get_raw f kw1 = get_raw f kw2) :
    mk_config schema kw1 = mk_config schema kw2 := by
  induction schema with
  | nil => rfl
  | cons f fs ih =>
    simp only [mk_config, h f (by simp),
      ih (fun g hg => h g (by simp [hg]))]

/-- Claim C8, amended: with an empty process argument list,
`from_entrypoint` returns exactly the instance constructed from the
declared defaults alone, for every specification-valid schema with
distinct field names in which every field declares a default that is
already in its coerced form (a well-typed default; a plain-string
default awaiting coercion is the one exception, see the
counterexample). -/
theorem C8_entrypoint_defaults (schema : List FieldSpec)
    (hvalid : ∀ f ∈ schema, spec_valid_field_type f.type = true)
    (hnodup : (schema.map FieldSpec.name).Nodup)
    (hdef : ∀ f ∈ schema, ∃ d, f.default = some d ∧
      post_init_field f.type d = .ok d) :
    from_entrypoint schema [] = mk_config schema [] := by
  have hns := assemble_ns_empty schema (fun f hf => ⟨hvalid f hf, hdef f hf⟩)
  have hkeys :
      ((schema.map (fun f =>
        ((f.name : String), match f.default with
          | some d => d
          | none => PyVal.vMissing))).map Prod.fst) =
        schema.map FieldSpec.name := by
    simp
  have hnodup2 :
      ((schema.map (fun f =>
        ((f.name : String), match f.default with
          | some d => d
          | none => PyVal.vMissing))).map Prod.fst).Nodup := by
    rw [hkeys]; exact hnodup
  have hpg : parse_go (schema.map add_argument) [] none = .ok ([], []) := rfl
  simp only [from_entrypoint, parse_known_args, hpg, hns]
  refine mk_config_ext schema _ [] ?_
  intro f hf
  obtain ⟨d, hdf, hfix⟩ := hdef f hf
  have hknown : ((schema.map (fun f => f.name)).contains f.name) = true :=
    List.elem_iff.mpr (List.mem_map_of_mem (fun f => f.name) hf)
  have hmem : ((f.name : String), match f.default with
      | some d => d
      | none => PyVal.vMissing) ∈
      schema.map (fun f =>
        ((f.name : String), match f.default with
          | some d => d
          | none => PyVal.vMissing)) :=
    List.mem_map_of_mem _ hf
  have hlk := lookup_pairs_self hnodup2 _ hmem
  rw [get_raw, get_raw,
    lookup_kw_filter (fun k => (schema.map (fun f => f.name)).contains k)
      _ f.name hknown, hlk, hdf]
  rfl

/-- Claim C8, witness: a concrete schema with a float, a bool switch, a
tuple of ints and a string, all defaulted; an empty argument list gives
the default-constructed instance. -/
theorem C8_witness :
    from_entrypoint
      [⟨"lr", .floatT, some (.vFloat 1 3)⟩,
       ⟨"use_gpu", .boolT, some (.vBool false)⟩,
       ⟨"seeds", .generic .tupleT [.intT, .ellipsisT],
        some (.vTuple [.vInt 1, .vInt 2, .vInt 3])⟩,
       ⟨"tag", .strT, some (.vStr "base")⟩] [] =
      mk_config
        [⟨"lr", .floatT, some (.vFloat 1 3)⟩,
         ⟨"use_gpu", .boolT, some (.vBool false)⟩,
         ⟨"seeds", .generic .tupleT [.intT, .ellipsisT],
          some (.vTuple [.vInt 1, .vInt 2, .vInt 3])⟩,
         ⟨"tag", .strT, some (.vStr "base")⟩] [] :=
  C8_entrypoint_defaults
    [⟨"lr", .floatT, some (.vFloat 1 3)⟩,
     ⟨"use_gpu", .boolT, some (.vBool false)⟩,
     ⟨"seeds", .generic .tupleT [.intT, .ellipsisT],
      some (.vTuple [.vInt 1, .vInt 2, .vInt 3])⟩,
     ⟨"tag", .strT, some (.vStr "base")⟩]
    (by decide) (by decide)
    (by
      intro f hf
      simp only [List.mem_cons, List.not_mem_nil, or_false] at hf
      rcases hf with rfl | rfl | rfl | rfl
      · exact ⟨_, rfl, rfl⟩
      · exact ⟨_, rfl, rfl⟩
      · exact ⟨_, rfl, rfl⟩
      · exact ⟨_, rfl, rfl⟩)

/-- Claim C8, counterexample: a schema whose field type is valid and
which declares a default is not always reproduced by an empty argument
list.  With `seeds: Tuple[int, ...] = "12"` direct construction coerces
the string default elementwise to the tuple `(1, 2)`, but argparse
passes the unseen string default through the action type (`int`) first,
so `from_entrypoint` hands construction the int `12`, and `map` over a
non-iterable int raises `TypeError`: the two results differ. -/
theorem C8_counterexample :
    mk_config
      [⟨"seeds", .generic .tupleT [.intT, .ellipsisT], some (.vStr "12")⟩]
      [] = .ok [("seeds", .vTuple [.vInt 1, .vInt 2])] ∧
    from_entrypoint
      [⟨"seeds", .generic .tupleT [.intT, .ellipsisT], some (.vStr "12")⟩]
      [] = .error (.typeError "argument is not iterable") :=
  ⟨rfl, rfl⟩
